import Mathlib

/-!
Shallow embedding of the tournament application's data model and core
operations, translated from `src/js/admin-data.js`, `src/js/user-data.js`
and `src/unnamed/part_007`, together with theorems settling the
specification claims about slot allocation, the join transaction and
prize settlement.

Conventions of the embedding:
* Firestore collections keyed by document id become association lists
  `List (String × _)`; a point read is a first-match lookup.
* JS decimal amounts (wallet balances, fees, prizes) become integers.
* A `writeBatch`/`runTransaction` becomes a function `DB → Except String DB`:
  an error models the batch/transaction aborting with no write at all,
  `.ok` models the atomic commit of every queued write.
* Server timestamps and DOM-only data are omitted; toast messages become
  the error strings.
-/

/-- Money amounts (JS decimal numbers). They are modelled as integers:
every operation of the source combines amounts by addition, subtraction,
multiplication and order comparison only, so the embedding is faithful on
those operations while keeping every state kernel-computable. -/
abbrev Money := Int

/-- Tournament lifecycle status (`'Upcoming' | 'Live' | 'Completed'`). -/
inductive TStatus where
  | Upcoming
  | Live
  | Completed
  deriving DecidableEq

/-- Participant status (`'Joined' | 'Winner' | 'Completed'`). -/
inductive PStatus where
  | Joined
  | Winner
  | Completed
  deriving DecidableEq

/-- One cell of the slot table (the `slots` array of `part_007`): the fields
the join transaction writes when the cell is claimed. A free cell has
`userId = none`. -/
structure SlotCell where
  userId : Option String
  participantId : Option String
  ign : String
  deriving DecidableEq

/-- A `users` document. -/
structure User where
  username : String
  email : String
  walletBalance : Money
  isAdmin : Bool
  deriving DecidableEq

/-- A `tournaments` document. `slots` is `some _` in the slot-table variant
(`part_007`) and `none` in the occupancy-counter variant (`user-data.js`). -/
structure Tournament where
  title : String
  entryFee : Money
  prizePool : Money
  status : TStatus
  roomId : String
  roomPassword : String
  maxParticipants : Nat
  currentParticipants : Nat
  perKillEnabled : Bool
  perKillPrize : Money
  mode : String
  slots : Option (List SlotCell)
  deriving DecidableEq

/-- A `participants` document. `teamId` stands for the `teamId`/`teamIndex`
field of the two join variants; `kills` and `seenByUser` are absent
(`none`) until some operation writes them. -/
structure Participant where
  userId : String
  username : String
  ign : String
  tournamentId : String
  status : PStatus
  slotIndex : Option Nat
  teamId : Option Nat
  kills : Option Nat
  seenByUser : Option Bool
  deriving DecidableEq

/-- A `transactions` ledger document. -/
structure Txn where
  userId : String
  amount : Money
  type : String
  description : String
  deriving DecidableEq

/-- The document store: the four collections the core logic touches. -/
structure DB where
  users : List (String × User)
  tournaments : List (String × Tournament)
  participants : List (String × Participant)
  transactions : List Txn
  deriving DecidableEq

/-- Point read of a document by id (first match in the association list). -/
def lookupD {α : Type} (l : List (String × α)) (k : String) : Option α :=
  match l with
  | [] => none
  | (k', v) :: rest => if k' = k then some v else lookupD rest k

/-- Update the document stored at the first occurrence of a key, leaving
every other document alone. -/
def updateD {α : Type} (l : List (String × α)) (k : String) (f : α → α) :
    List (String × α) :=
  match l with
  | [] => []
  | (k', v) :: rest =>
    if k' = k then (k', f v) :: rest else (k', v) :: updateD rest k f

/-! ## Tournament creation (admin-data.js `handleCreateTournament`) -/

/-- The mode / maxParticipants validation of `handleCreateTournament`
(admin-data.js lines 97-109): `true` when creation proceeds, `false` when
the duo/squad divisibility toast aborts it. -/
def createTournamentModeCheck (mode : String) (maxParticipants : Nat) : Bool :=
  if mode == "duo" && maxParticipants % 2 != 0 then false
  else if mode == "squad" && maxParticipants % 4 != 0 then false
  else true

/-- Team size by game mode, as computed in `buildAndShowSlotSelection`
(user-data.js line 350): duo 2, squad 4, anything else 1. -/
def teamSizeOf (gameMode : String) : Nat :=
  if gameMode == "duo" then 2 else if gameMode == "squad" then 4 else 1

/-- `totalTeams = Math.floor(max / teamSize)` (user-data.js line 391). -/
def totalTeamsOf (gameMode : String) (max : Nat) : Nat :=
  max / teamSizeOf gameMode

/-! ## Room details update (admin-data.js `handleUpdateRoomDetails`) -/

/-- `handleUpdateRoomDetails` (admin-data.js lines 237-251): an
unconditional `updateDoc` that writes the room credentials and sets
`status : 'Live'`; it fails only when the document is missing. -/
def handleUpdateRoomDetails (db : DB) (tid roomId roomPassword : String) :
    Except String DB :=
  match lookupD db.tournaments tid with
  | none => .error "Error updating room"
  | some _ => .ok { db with
      tournaments := updateD db.tournaments tid (fun t =>
        { t with
          roomId := roomId
          roomPassword := roomPassword
          status := TStatus.Live }) }

/-! ## Settlement (admin-data.js `handleDeclareWinner`) -/

/-- All participant documents of one tournament, in snapshot order
(the `where("tournamentId", "==", tid)` query). -/
def participantsOf (db : DB) (tid : String) : List (String × Participant) :=
  db.participants.filter (fun q => q.2.tournamentId == tid)

/-- JS `killsMap[pid] || 0`: a missing entry counts as zero kills. -/
def killsOf (km : List (String × Nat)) (pid : String) : Nat :=
  (lookupD km pid).getD 0

/-- `maxKills` as the per-kill path computes it (admin-data.js lines
288-295): a fold starting at `-1` over the participant snapshot. -/
def maxKillsInt (km : List (String × Nat))
    (parts : List (String × Participant)) : Int :=
  parts.foldl (fun m q => max m (killsOf km q.1 : Int)) (-1)

/-- The credit transactions queued by the per-kill loop (admin-data.js
lines 297-314): one per participant whose `amount = kills * perKillPrize`
is strictly positive. -/
def perKillCredits (km : List (String × Nat)) (perKillPrize : Money)
    (title : String) (parts : List (String × Participant)) : List Txn :=
  parts.filterMap (fun q =>
    let kills := killsOf km q.1
    let amount : Money := (kills : Money) * perKillPrize
    if 0 < amount then
      some { userId := q.2.userId, amount := amount, type := "credit",
             description := "Per-kill prize (" ++ toString kills ++
               " kills) - " ++ q.2.username ++ " - Manage: " ++ title }
    else none)

/-- Apply the queued `walletBalance: increment(amount)` updates of a batch. -/
def applyCredits (users : List (String × User)) (credits : List Txn) :
    List (String × User) :=
  credits.foldl (fun us c => updateD us c.userId (fun v =>
    { v with walletBalance := v.walletBalance + c.amount })) users

/-- The per-kill branch of `handleDeclareWinner` (admin-data.js lines
266-324) after input parsing: one atomic batch that sets the tournament
to `Completed`, rewrites every participant of the tournament
(status by the `maxKills` rule, `seenByUser : false`, the `kills` field),
and, for each strictly positive payout, increments the user's wallet and
appends a credit transaction. `batch.update` on a missing document makes
the whole commit fail, hence the two error branches. -/
def handleDeclareWinnerPerKill (db : DB) (tid : String)
    (km : List (String × Nat)) : Except String DB :=
  match lookupD db.tournaments tid with
  | none => .error "Error distributing per-kill prizes"
  | some t =>
    let parts := participantsOf db tid
    let maxKills := maxKillsInt km parts
    let credits := perKillCredits km t.perKillPrize t.title parts
    if credits.any (fun c => (lookupD db.users c.userId).isNone) then
      .error "Error distributing per-kill prizes"
    else .ok { db with
      tournaments := updateD db.tournaments tid (fun v =>
        { v with status := TStatus.Completed }),
      participants := db.participants.map (fun q =>
        if q.2.tournamentId == tid then
          (q.1, { q.2 with
            status := if 0 < maxKills ∧ (killsOf km q.1 : Int) = maxKills
                      then PStatus.Winner else PStatus.Completed,
            seenByUser := some false,
            kills := some (killsOf km q.1) })
        else q),
      users := applyCredits db.users credits,
      transactions := db.transactions ++ credits }

/-- The winner-take-all branch of `handleDeclareWinner` (admin-data.js
lines 332-369): one atomic batch that increments the chosen winner's
wallet by the tournament's prize pool, appends one credit transaction of
that amount, sets the tournament to `Completed`, and rewrites every
participant of the tournament (`Winner` for documents whose `userId`
matches the chosen winner, `Completed` otherwise, `seenByUser : false`).
Note that no check of the current tournament status happens here. The
source takes `prizePool` from `currentManagingTournament.prizePool || 0`,
the onSnapshot-cached copy of this tournament document's `prizePool`
field; the embedding reads the same field from the store. -/
def handleDeclareWinnerNormal (db : DB) (tid winnerUserId : String) :
    Except String DB :=
  match lookupD db.tournaments tid with
  | none => .error "Error declaring winner"
  | some t =>
    if (lookupD db.users winnerUserId).isNone then
      .error "Error declaring winner"
    else .ok { db with
      users := updateD db.users winnerUserId (fun v =>
        { v with walletBalance := v.walletBalance + t.prizePool }),
      transactions := db.transactions ++
        [{ userId := winnerUserId, amount := t.prizePool, type := "credit",
           description := "Prize money for Manage: " ++ t.title }],
      tournaments := updateD db.tournaments tid (fun v =>
        { v with status := TStatus.Completed }),
      participants := db.participants.map (fun q =>
        if q.2.tournamentId == tid then
          (q.1, { q.2 with
            status := if q.2.userId == winnerUserId then PStatus.Winner
                      else PStatus.Completed,
            seenByUser := some false })
        else q) }

/-! ## Join, occupancy-counter variant
(user-data.js `handleJoinTournamentWithSlot`, lines 445-529) -/

/-- The two pre-transaction queries of `handleJoinTournamentWithSlot`
(user-data.js lines 454-473): the duplicate-join query, then, when a slot
was selected, the slot-occupancy query. Returns the toast message of the
first failing check. -/
def joinWithSlotPre (db : DB) (userId tournamentId : String)
    (slotIndex : Option Nat) : Option String :=
  if db.participants.any (fun q =>
      q.2.userId == userId && q.2.tournamentId == tournamentId) then
    some "You have already joined this tournament."
  else
    match slotIndex with
    | some k =>
      if db.participants.any (fun q =>
          q.2.tournamentId == tournamentId && q.2.slotIndex == some k) then
        some "Selected slot is already taken. Please choose another."
      else none
    | none => none

/-- The `runTransaction` body of `handleJoinTournamentWithSlot`
(user-data.js lines 481-520). The slot is NOT re-checked here — the
source comment at lines 496-497 says the final slot read stays outside
the transaction. On success it debits the wallet, creates the participant
and the debit transaction, and bumps `currentParticipants`. -/
def joinWithSlotTx (db : DB) (userId tournamentId : String)
    (entryFee : Money) (ingameName : String) (slotIndex teamId : Option Nat)
    (pid : String) : Except String DB :=
  match lookupD db.users userId with
  | none => .error "User document not found."
  | some u =>
    if u.walletBalance < entryFee then .error "Insufficient Balance"
    else
      match lookupD db.tournaments tournamentId with
      | none => .error "Tournament not found."
      | some t =>
        if t.status ≠ TStatus.Upcoming then
          .error "Tournament is no longer available."
        else if t.maxParticipants ≤ t.currentParticipants then
          .error "Tournament is already full."
        else .ok { db with
          users := updateD db.users userId (fun v =>
            { v with walletBalance := u.walletBalance - entryFee })
          participants := db.participants ++ [(pid,
            { userId := userId
              username := u.username
              ign := ingameName
              tournamentId := tournamentId
              status := PStatus.Joined
              slotIndex := slotIndex
              teamId := teamId
              kills := none
              seenByUser := none })]
          transactions := db.transactions ++
            [{ userId := userId, amount := entryFee, type := "debit",
               description := "Entry fee for " ++ t.title }]
          tournaments := updateD db.tournaments tournamentId (fun v =>
            { v with currentParticipants := t.currentParticipants + 1 }) }

/-- `handleJoinTournamentWithSlot` (user-data.js lines 445-529): the
pre-checks followed, in the same quiescent state, by the transaction. -/
def handleJoinTournamentWithSlot (db : DB) (userId tournamentId : String)
    (entryFee : Money) (ingameName : String) (slotIndex teamId : Option Nat)
    (pid : String) : Except String DB :=
  match joinWithSlotPre db userId tournamentId slotIndex with
  | some e => .error e
  | none =>
    joinWithSlotTx db userId tournamentId entryFee ingameName slotIndex
      teamId pid

/-! ## Join, slot-table variant
(part_007 `handleJoinTournamentWithSlot`, lines 259-359) -/

/-- The default slot cell used for the JS indexing `tData.slots[i]`. -/
def emptyCell : SlotCell := { userId := none, participantId := none, ign := "" }

/-- The slot-table join transaction of `part_007` (lines 276-349): every
check, including slot freedom (`!slotObj || slotObj.userId`) and the
duplicate-join query, runs inside the transaction; on success it debits
the wallet, creates the participant (with `seenByUser : false`), appends
the debit transaction, writes the claimed cell of the `slots` array and
bumps `currentParticipants`. -/
def handleJoinTournamentSlotTable (db : DB) (userId tournamentId : String)
    (entryFee : Money) (slotIndex : Nat) (teamIndex : Option Nat)
    (ign : String) (pid : String) : Except String DB :=
  match lookupD db.users userId with
  | none => .error "User document not found."
  | some u =>
    if u.walletBalance < entryFee then .error "Insufficient Balance"
    else
      match lookupD db.tournaments tournamentId with
      | none => .error "Tournament not found."
      | some t =>
        if t.status ≠ TStatus.Upcoming then
          .error "Tournament is no longer available."
        else
          match t.slots with
          | none => .error "Tournament slot data missing."
          | some arr =>
            if slotIndex < 1 ∨ arr.length < slotIndex then
              .error "Invalid slot selected."
            else if ((arr.getD (slotIndex - 1) emptyCell).userId).isSome then
              .error "Selected slot is already taken."
            else if db.participants.any (fun q =>
                q.2.userId == userId && q.2.tournamentId == tournamentId) then
              .error "You have already joined this tournament."
            else
              let cell := arr.getD (slotIndex - 1) emptyCell
              .ok { db with
                users := updateD db.users userId (fun v =>
                  { v with walletBalance := u.walletBalance - entryFee })
                participants := db.participants ++ [(pid,
                  { userId := userId
                    username := u.username
                    ign := ign
                    tournamentId := tournamentId
                    status := PStatus.Joined
                    slotIndex := some slotIndex
                    teamId := teamIndex
                    kills := none
                    seenByUser := some false })]
                transactions := db.transactions ++
                  [{ userId := userId, amount := entryFee, type := "debit",
                     description := "Entry fee for " ++ t.title }]
                tournaments := updateD db.tournaments tournamentId (fun v =>
                  { v with
                    slots := some (arr.set (slotIndex - 1)
                      { cell with
                        userId := some userId
                        participantId := some pid
                        ign := ign })
                    currentParticipants := t.currentParticipants + 1 }) }

/-! ## Specification-side definitions

These definitions follow the wording of the specification (not the
source); they exist to be compared with the source-translated operations
above. -/

/-- The error component of a join attempt, for comparing the two join
phases with a flat check list. -/
def errOf (r : Except String DB) : Option String :=
  match r with
  | .error e => some e
  | .ok _ => none

/-- The first violated check of the join transaction body, as a flat
list in the source's order: user document, wallet balance, tournament
document, tournament status, capacity. -/
def joinTxOrderError (db : DB) (userId tournamentId : String)
    (entryFee : Money) : Option String :=
  match lookupD db.users userId with
  | none => some "User document not found."
  | some u =>
    if u.walletBalance < entryFee then some "Insufficient Balance"
    else
      match lookupD db.tournaments tournamentId with
      | none => some "Tournament not found."
      | some t =>
        if t.status ≠ TStatus.Upcoming then
          some "Tournament is no longer available."
        else if t.maxParticipants ≤ t.currentParticipants then
          some "Tournament is already full."
        else none

/-- The first violated precondition of the counter-variant join, in the
order the source actually checks them: duplicate join and slot occupancy
(the two pre-transaction queries), then the transaction checks of
`joinTxOrderError`. -/
def joinActualOrderError (db : DB) (userId tournamentId : String)
    (entryFee : Money) (slotIndex : Option Nat) : Option String :=
  if db.participants.any (fun q =>
      q.2.userId == userId && q.2.tournamentId == tournamentId) then
    some "You have already joined this tournament."
  else if (match slotIndex with
           | some k => db.participants.any (fun q =>
               q.2.tournamentId == tournamentId && q.2.slotIndex == some k)
           | none => false) then
    some "Selected slot is already taken. Please choose another."
  else joinTxOrderError db userId tournamentId entryFee

/-- Modelled from the spec: the join precondition order claimed in §4.2
(tournament exists, status Upcoming, not full, not already joined, slot
free, sufficient balance), each violation named by its error kind from
the spec's taxonomy. This is the claim's ordering, to be compared with
the source's actual ordering. -/
def joinSpecClaimOrderError (db : DB) (userId tournamentId : String)
    (entryFee : Money) (slotIndex : Option Nat) : Option String :=
  match lookupD db.tournaments tournamentId with
  | none => some "NotFoundError"
  | some t =>
    if t.status ≠ TStatus.Upcoming then some "TournamentClosedError"
    else if t.maxParticipants ≤ t.currentParticipants then
      some "TournamentFullError"
    else if db.participants.any (fun q =>
        q.2.userId == userId && q.2.tournamentId == tournamentId) then
      some "AlreadyJoinedError"
    else if (match slotIndex with
             | some k => db.participants.any (fun q =>
                 q.2.tournamentId == tournamentId && q.2.slotIndex == some k)
             | none => false) then
      some "SlotTakenError"
    else
      match lookupD db.users userId with
      | none => some "InsufficientBalanceError"
      | some u =>
        if u.walletBalance < entryFee then some "InsufficientBalanceError"
        else none

/-- The maximum submitted kill count, in the spec's terms: the largest
kill entry of the tournament's participants (0 when there are none). -/
def specMaxKills (km : List (String × Nat))
    (parts : List (String × Participant)) : Nat :=
  (parts.map (fun q => killsOf km q.1)).foldl Nat.max 0

/-- A kills map extended with an explicit zero entry for every listed
participant id that has no entry (what "defaulting missing entries to
zero" means as a map transformation). -/
def padKills (km : List (String × Nat)) (ids : List String) :
    List (String × Nat) :=
  km ++ (ids.filter (fun pid => (lookupD km pid).isNone)).map
    (fun pid => (pid, (0 : Nat)))

/-- The no-double-occupancy property of §8.1, together with the coupling
between a participant's claimed `slotIndex` and the tournament's slot
table: distinct participant documents of one tournament never share a
non-null slot index, and every claimed slot index points at an occupied
cell of its tournament's slot table. -/
def SlotInv (db : DB) : Prop :=
  (∀ q ∈ db.participants, ∀ r ∈ db.participants,
    q.1 ≠ r.1 → q.2.tournamentId = r.2.tournamentId →
    ∀ k : Nat, q.2.slotIndex = some k → r.2.slotIndex ≠ some k) ∧
  (∀ q ∈ db.participants, ∀ k : Nat, q.2.slotIndex = some k →
    ∀ t : Tournament, lookupD db.tournaments q.2.tournamentId = some t →
    ∀ arr : List SlotCell, t.slots = some arr →
    ((arr.getD (k - 1) emptyCell).userId).isSome = true)

/-- Decidable check for a double-booked slot: two distinct participant
documents of the tournament holding the same non-null slot index. -/
def hasDoubleBooking (db : DB) (tid : String) : Bool :=
  db.participants.any (fun q => db.participants.any (fun r =>
    q.1 != r.1 && q.2.tournamentId == tid && r.2.tournamentId == tid &&
    q.2.slotIndex.isSome && q.2.slotIndex == r.2.slotIndex))

/-- Total amount credited to one user by a list of queued transactions. -/
def sumFor (uid : String) (credits : List Txn) : Money :=
  ((credits.filter (fun c => c.userId == uid)).map (fun c => c.amount)).sum

/-! ## Helper extractors and decidable pre-checks -/

/-- Extract the committed state of a successful operation (or a default). -/
def okOr (r : Except String DB) (dflt : DB) : DB :=
  match r with
  | .ok s => s
  | .error _ => dflt

/-- All checks of the slot-table join transaction that come before the
slot-freedom check: user document present, sufficient balance, tournament
present with status Upcoming, slot table present, index in range. -/
def slotTableJoinChecks (db : DB) (userId tournamentId : String)
    (entryFee : Money) (slotIndex : Nat) : Bool :=
  match lookupD db.users userId with
  | none => false
  | some u =>
    !(decide (u.walletBalance < entryFee)) &&
    (match lookupD db.tournaments tournamentId with
     | none => false
     | some t =>
       decide (t.status = TStatus.Upcoming) &&
       (match t.slots with
        | none => false
        | some arr =>
          decide (1 ≤ slotIndex) && decide (slotIndex ≤ arr.length)))

/-- Whether the requested cell of the tournament's slot table is occupied. -/
def slotCellTaken (db : DB) (tournamentId : String) (slotIndex : Nat) : Bool :=
  match lookupD db.tournaments tournamentId with
  | none => false
  | some t =>
    match t.slots with
    | none => false
    | some arr => ((arr.getD (slotIndex - 1) emptyCell).userId).isSome

/-! ## Concrete documents and states for witnesses and counterexamples -/

/-- A user with a zero wallet. -/
def userZero (n : String) : User :=
  { username := n, email := n ++ "@x", walletBalance := 0, isAdmin := false }

/-- A user with wallet balance 100. -/
def userRich (n : String) : User :=
  { username := n, email := n ++ "@x", walletBalance := 100, isAdmin := false }

/-- An Upcoming counter-variant tournament: entry fee 10, 10 seats, empty. -/
def tRace : Tournament :=
  { title := "RT", entryFee := 10, prizePool := 0, status := TStatus.Upcoming,
    roomId := "", roomPassword := "", maxParticipants := 10,
    currentParticipants := 0, perKillEnabled := false, perKillPrize := 0,
    mode := "solo", slots := none }

/-- An Upcoming full counter-variant tournament (2 of 2 seats taken). -/
def tFull : Tournament :=
  { tRace with
    title := "FT"
    entryFee := 50
    maxParticipants := 2
    currentParticipants := 2 }

/-- An Upcoming slot-table tournament with two free cells. -/
def tSlot : Tournament :=
  { tRace with
    title := "ST"
    maxParticipants := 2
    slots := some [emptyCell, emptyCell] }

/-- An Upcoming slot-table tournament whose first cell is already taken. -/
def tSlotOcc : Tournament :=
  { tSlot with
    slots := some
      [{ userId := some "u0", participantId := some "p0", ign := "Z" },
       emptyCell] }

/-- A Live per-kill tournament with per-kill prize 50. -/
def tPerKill : Tournament :=
  { tRace with
    title := "KT"
    status := TStatus.Live
    perKillEnabled := true
    perKillPrize := 50 }

/-- A Live winner-take-all tournament with prize pool 1000. -/
def tPrize : Tournament :=
  { tRace with title := "WT", status := TStatus.Live, prizePool := 1000 }

/-- An already Completed tournament with prize pool 500. -/
def tDone : Tournament :=
  { tRace with title := "DT", status := TStatus.Completed, prizePool := 500 }

/-- A freshly joined participant document of tournament `t1`. -/
def joinedPart (uid : String) : Participant :=
  { userId := uid, username := uid, ign := "", tournamentId := "t1",
    status := PStatus.Joined, slotIndex := none, teamId := none,
    kills := none, seenByUser := none }

/-- State for the C2 counterexample: a full tournament and a broke user. -/
def cdb2 : DB :=
  { users := [("u1", userZero "u1")], tournaments := [("t1", tFull)],
    participants := [], transactions := [] }

/-- Initial state of the C3 race: two funded users, one empty
counter-variant tournament. -/
def raceDB0 : DB :=
  { users := [("ua", userRich "ua"), ("ub", userRich "ub")],
    tournaments := [("t1", tRace)], participants := [], transactions := [] }

/-- State after user `ua` commits a join for slot 1. -/
def raceDB1 : DB :=
  okOr (handleJoinTournamentWithSlot raceDB0 "ua" "t1" 10 "A" (some 1) none
    "pa") raceDB0

/-- State after user `ub`, whose pre-checks ran against `raceDB0`, commits
its transaction (which performs no slot check) on `raceDB1`. -/
def raceDB2 : DB :=
  okOr (joinWithSlotTx raceDB1 "ub" "t1" 10 "B" (some 1) none "pb") raceDB1

/-- State for slot-table witnesses: one funded user, two free cells. -/
def sdb : DB :=
  { users := [("u1", userRich "u1")], tournaments := [("t1", tSlot)],
    participants := [], transactions := [] }

/-- The state after the successful slot-table join of `sdb`. -/
def sdbJoined : DB :=
  okOr (handleJoinTournamentSlotTable sdb "u1" "t1" 10 1 none "IGN" "p1") sdb

/-- Like `sdb` but the requested cell is already occupied. -/
def sdbOcc : DB :=
  { sdb with tournaments := [("t1", tSlotOcc)] }

/-- State for the C1 witness: three zero-wallet users registered in the
Live per-kill tournament `t1`. -/
def pkdb : DB :=
  { users := [("u1", userZero "u1"), ("u2", userZero "u2"),
      ("u3", userZero "u3")],
    tournaments := [("t1", tPerKill)],
    participants := [("p1", joinedPart "u1"), ("p2", joinedPart "u2"),
      ("p3", joinedPart "u3")],
    transactions := [] }

/-- The specification's example kills map: p1 three kills, p2 and p3 five. -/
def pkKills : List (String × Nat) := [("p1", 3), ("p2", 5), ("p3", 5)]

/-- State for the C4 witness: three zero-wallet users registered in the
Live winner-take-all tournament `t1`. -/
def windb : DB :=
  { users := [("uA", userZero "uA"), ("uB", userZero "uB"),
      ("uC", userZero "uC")],
    tournaments := [("t1", tPrize)],
    participants := [("pA", joinedPart "uA"), ("pB", joinedPart "uB"),
      ("pC", joinedPart "uC")],
    transactions := [] }

/-- State for the C5 counterexample: one registered participant in the
Live per-kill tournament, about to be settled with an empty kills map. -/
def missdb : DB :=
  { users := [("u1", userZero "u1")], tournaments := [("t1", tPerKill)],
    participants := [("p1", joinedPart "u1")], transactions := [] }

/-- State for the C6 failing input: a tournament that is already
Completed, its winner still registered. -/
def donedb : DB :=
  { users := [("u1", userRich "u1")], tournaments := [("t1", tDone)],
    participants := [("p1",
      { joinedPart "u1" with
        status := PStatus.Winner
        seenByUser := some true })],
    transactions := [] }

/-- A Live winner-take-all tournament with a zero prize pool. -/
def tZero : Tournament :=
  { tRace with
    title := "ZT"
    status := TStatus.Live
    prizePool := 0 }

/-- State for the C10 witness: the zero-prize tournament with one
registered participant. -/
def zerodb : DB :=
  { users := [("u1", userZero "u1")], tournaments := [("t1", tZero)],
    participants := [("p1", joinedPart "u1")], transactions := [] }

/-- The state after the winner-take-all settlement of `zerodb`. -/
def zeroSettled : DB :=
  okOr (handleDeclareWinnerNormal zerodb "t1" "u1") zerodb

/-- The state after per-kill settling `missdb` with an empty kills map. -/
def pkMissSettled : DB :=
  okOr (handleDeclareWinnerPerKill missdb "t1" []) missdb

/-- The state after the winner-take-all settlement of `windb`. -/
def winSettled : DB :=
  okOr (handleDeclareWinnerNormal windb "t1" "uA") windb

/-- The state after running the room-details update on `donedb`. -/
def roomUpdDone : DB :=
  okOr (handleUpdateRoomDetails donedb "t1" "room" "pw") donedb

/-! ## Helper lemmas about the store primitives -/

theorem lookupD_updateD_self {α : Type} (l : List (String × α)) (k : String)
    (f : α → α) : lookupD (updateD l k f) k = (lookupD l k).map f := by
  induction l with
  | nil => rfl
  | cons hd tl ih =>
    obtain ⟨k', v⟩ := hd
    by_cases h : k' = k <;> simp [lookupD, updateD, h, ih]

theorem lookupD_updateD_ne {α : Type} (l : List (String × α)) {k k' : String}
    (f : α → α) (h : k' ≠ k) :
    lookupD (updateD l k f) k' = lookupD l k' := by
  induction l with
  | nil => rfl
  | cons hd tl ih =>
    obtain ⟨k₀, v⟩ := hd
    by_cases h0 : k₀ = k
    · subst h0
      simp [lookupD, updateD, (Ne.symm h : k₀ ≠ k')]
    · simp only [updateD, if_neg h0, lookupD]
      by_cases h1 : k₀ = k' <;> simp [h1, ih]

theorem lookupD_append {α : Type} (l m : List (String × α)) (k : String) :
    lookupD (l ++ m) k = (lookupD l k).or (lookupD m k) := by
  induction l with
  | nil => simp [lookupD]
  | cons hd tl ih =>
    obtain ⟨k', v⟩ := hd
    by_cases h : k' = k <;> simp [lookupD, h, ih]

theorem lookupD_of_mem {α : Type} {l : List (String × α)} {q : String × α}
    (hN : (l.map Prod.fst).Nodup) (hq : q ∈ l) :
    lookupD l q.1 = some q.2 := by
  induction l with
  | nil => cases hq
  | cons hd tl ih =>
    simp only [List.map_cons, List.nodup_cons] at hN
    rcases List.mem_cons.mp hq with h | h
    · subst h; simp [lookupD]
    · have hne : hd.1 ≠ q.1 := by
        intro hcontra
        exact hN.1 (hcontra ▸ List.mem_map_of_mem Prod.fst h)
      simp [lookupD, hne, ih hN.2 h]

theorem lookupD_map_keyed {α β : Type} {l : List (String × α)}
    {q : String × α} (g : String × α → β)
    (hN : (l.map Prod.fst).Nodup) (hq : q ∈ l) :
    lookupD (l.map (fun r => (r.1, g r))) q.1 = some (g q) := by
  induction l with
  | nil => cases hq
  | cons hd tl ih =>
    simp only [List.map_cons, List.nodup_cons] at hN
    rcases List.mem_cons.mp hq with h | h
    · subst h; simp [lookupD]
    · have hne : hd.1 ≠ q.1 := by
        intro hcontra
        exact hN.1 (hcontra ▸ List.mem_map_of_mem Prod.fst h)
      simp [lookupD, hne, ih hN.2 h]

theorem killsOf_zero_entries (l : List String) (pid : String) :
    killsOf (l.map (fun x => (x, (0 : Nat)))) pid = 0 := by
  induction l with
  | nil => rfl
  | cons hd tl ih =>
    by_cases h : hd = pid
    · simp [killsOf, lookupD, h]
    · simp only [List.map_cons, killsOf, lookupD, h, if_false]
      simpa [killsOf] using ih

theorem killsOf_padKills (km : List (String × Nat)) (ids : List String)
    (pid : String) : killsOf (padKills km ids) pid = killsOf km pid := by
  unfold padKills killsOf
  rw [lookupD_append]
  cases h : lookupD km pid with
  | some v => simp [h]
  | none =>
    simp only [h, Option.none_or, Option.getD_none]
    simpa [killsOf] using
      killsOf_zero_entries ((ids.filter (fun p => (lookupD km p).isNone))) pid

/-! ## Claim C5 -/

/-- Claim C5 (amended): the per-kill settlement does not reject a kills
map that misses entries for current participants; a missing entry is
defaulted to zero kills (`killsMap[pid] || 0`), so settling with a
partial map is exactly the same operation as settling with the same map
explicitly extended by zero entries for the missing participants. -/
theorem c5_missing_kills_default_to_zero (db : DB) (tid : String)
    (km : List (String × Nat)) :
    handleDeclareWinnerPerKill db tid
      (padKills km ((participantsOf db tid).map Prod.fst)) =
    handleDeclareWinnerPerKill db tid km := by
  have hfun : killsOf (padKills km ((participantsOf db tid).map Prod.fst)) =
      killsOf km := funext (killsOf_padKills km _)
  unfold handleDeclareWinnerPerKill maxKillsInt perKillCredits
  simp only [hfun]

/-- Claim C5 (counterexample): settling the per-kill tournament of
`missdb` with an *empty* kills map — an entry is missing for the
registered participant `p1` — does not fail with a validation error;
it commits, completing the tournament and writing `kills = 0`,
`status = Completed`, `seenByUser = false` onto `p1`. -/
theorem c5_counterexample :
    (handleDeclareWinnerPerKill missdb "t1" []).isOk = true ∧
    ((handleDeclareWinnerPerKill missdb "t1" []).toOption.map (fun s =>
      ((lookupD s.tournaments "t1").map Tournament.status,
       (lookupD s.participants "p1").map (fun p =>
         (p.status, p.kills, p.seenByUser))))) =
      some (some TStatus.Completed,
        some (PStatus.Completed, some 0, some false)) := by
  decide

/-! ## Claim C2 -/

/-- Claim C2 (counterexample): in `cdb2` the tournament is full (2 of 2)
and the user's balance (0) is below the entry fee (50). Checking the
claimed order would report the full tournament (step 3) long before the
balance (step 6); the source instead aborts the join with the
insufficient-balance error, because its transaction reads the wallet
before the tournament document. -/
theorem c2_counterexample :
    errOf (handleJoinTournamentWithSlot cdb2 "u1" "t1" 50 "x" (some 1) none
      "p9") = some "Insufficient Balance" ∧
    joinSpecClaimOrderError cdb2 "u1" "t1" 50 (some 1) =
      some "TournamentFullError" := by
  decide


/-- The error behaviour of the counter-variant join transaction body is
the flat ordered check list `joinTxOrderError`. -/
theorem errOf_joinWithSlotTx (db : DB) (userId tournamentId : String)
    (entryFee : Money) (ingameName : String) (slotIndex teamId : Option Nat)
    (pid : String) :
    errOf (joinWithSlotTx db userId tournamentId entryFee ingameName
      slotIndex teamId pid) =
    joinTxOrderError db userId tournamentId entryFee := by
  unfold joinWithSlotTx joinTxOrderError
  cases h1 : lookupD db.users userId with
  | none => rfl
  | some u =>
    by_cases h2 : u.walletBalance < entryFee
    · simp [h2, errOf]
    · cases h3 : lookupD db.tournaments tournamentId with
      | none => simp [h2, errOf]
      | some t =>
        by_cases h4 : t.status = TStatus.Upcoming
        · by_cases h5 : t.maxParticipants ≤ t.currentParticipants
          · simp [h2, h4, h5, errOf]
          · simp [h2, h4, h5, errOf]
        · simp [h2, h4, errOf]

/-- Claim C2 (amended): the counter-variant join checks its
preconditions in the order: duplicate join, then slot occupancy (the two
pre-transaction queries), then user document, wallet balance, tournament
existence, tournament status, capacity — each violation failing with its
message; since every check precedes every write and the writes commit
atomically, a failed join performs no write. The join's error behaviour
equals that flat ordered check list exactly. -/
theorem c2_join_error_order (db : DB) (userId tournamentId : String)
    (entryFee : Money) (ingameName : String) (slotIndex teamId : Option Nat)
    (pid : String) :
    errOf (handleJoinTournamentWithSlot db userId tournamentId entryFee
      ingameName slotIndex teamId pid) =
    joinActualOrderError db userId tournamentId entryFee slotIndex := by
  unfold handleJoinTournamentWithSlot joinWithSlotPre joinActualOrderError
  by_cases hA : db.participants.any (fun q =>
      q.2.userId == userId && q.2.tournamentId == tournamentId)
  · simp [hA, errOf]
  · cases slotIndex with
    | none =>
      simpa [hA] using
        errOf_joinWithSlotTx db userId tournamentId entryFee ingameName
          none teamId pid
    | some k =>
      by_cases hB : db.participants.any (fun q =>
          q.2.tournamentId == tournamentId && q.2.slotIndex == some k)
      · simp [hA, hB, errOf]
      · simpa [hA, hB] using
          errOf_joinWithSlotTx db userId tournamentId entryFee ingameName
            (some k) teamId pid

/-! ## Claim C3 -/

/-- Claim C3 (counterexample): a race in the occupancy-counter variant.
Both users' pre-checks run against `raceDB0`, where slot 1 is free, so
`ub`'s pre-check passes; `ua` commits first (`raceDB1`); `ub`'s
transaction body — which performs no slot check — then also commits
(`raceDB2`). Both joins succeed, no `SlotTakenError` is raised at commit
time, and the resulting state carries two distinct participants of the
same tournament holding slot 1: double occupancy is reachable. -/
theorem c3_counterexample :
    joinWithSlotPre raceDB0 "ub" "t1" (some 1) = none ∧
    (handleJoinTournamentWithSlot raceDB0 "ua" "t1" 10 "A" (some 1) none
      "pa").isOk = true ∧
    (joinWithSlotTx raceDB1 "ub" "t1" 10 "B" (some 1) none "pb").isOk =
      true ∧
    hasDoubleBooking raceDB2 "t1" = true := by
  decide

/-! ## Claim C6 -/

/-- Claim C6 (code bug, evaluated at the failing input): `donedb` holds a
tournament that is already `Completed`, yet the winner-take-all
settlement does not fail — it commits, crediting the winner's wallet with
the prize pool again (100 + 500 = 600) and appending one more credit
transaction. The source guards against this only by disabling the form
in the admin view (`pointer-events-none`); the settlement operation
itself never checks the tournament status. -/
theorem c6_resettlement_not_blocked :
    (lookupD donedb.tournaments "t1").map Tournament.status =
      some TStatus.Completed ∧
    (handleDeclareWinnerNormal donedb "t1" "u1").isOk = true ∧
    ((handleDeclareWinnerNormal donedb "t1" "u1").toOption.map (fun s =>
      ((lookupD s.users "u1").map User.walletBalance,
       s.transactions.length))) = some (some 600, 1) ∧
    donedb.transactions.length = 0 := by
  decide

/-! ## Claim C7 -/

/-- Claim C7 (counterexample): the room-details update on the already
`Completed` tournament of `donedb` succeeds and moves its status
backwards to `Live`. -/
theorem c7_counterexample :
    (lookupD donedb.tournaments "t1").map Tournament.status =
      some TStatus.Completed ∧
    ((handleUpdateRoomDetails donedb "t1" "room" "pw").toOption.map
      (fun s => (lookupD s.tournaments "t1").map Tournament.status)) =
      some (some TStatus.Live) := by
  decide

/-! ## Claim C8 -/

/-- Claim C8 (counterexample): a `maxParticipants` of zero passes the
creation-time validation for every mode (zero is divisible by every team
size), so creation does not fail as the claim requires. -/
theorem c8_counterexample :
    createTournamentModeCheck "duo" 0 = true ∧
    createTournamentModeCheck "squad" 0 = true ∧
    createTournamentModeCheck "solo" 0 = true := by
  decide

/-- Claim C8 (amended): creation-time validation accepts a configuration
exactly when the mode's team size (solo 1, duo 2, squad 4) divides
`maxParticipants` — in particular `maxParticipants = 0` is accepted for
every mode, since zero is divisible by every team size — and every
accepted configuration yields `maxParticipants / teamSize` full teams. -/
theorem c8_divisibility (mode : String) (maxP : Nat) :
    (createTournamentModeCheck mode maxP = true ↔ teamSizeOf mode ∣ maxP) ∧
    (teamSizeOf mode ∣ maxP →
      totalTeamsOf mode maxP * teamSizeOf mode = maxP) := by
  refine ⟨?_, fun hd => Nat.div_mul_cancel hd⟩
  unfold createTournamentModeCheck teamSizeOf
  by_cases h1 : mode == "duo"
  · rw [beq_iff_eq] at h1
    subst h1
    simp [Nat.dvd_iff_mod_eq_zero]
  · by_cases h2 : mode == "squad"
    · rw [beq_iff_eq] at h2
      subst h2
      simp [Nat.dvd_iff_mod_eq_zero]
    · simp [h1, h2]

/-- Witness for C8: the specification's own example pair — duo with 10
participants is accepted and yields 5 teams of 2, squad with 10 is
rejected. -/
theorem c8_divisibility_witness :
    (createTournamentModeCheck "duo" 10 = true ↔ teamSizeOf "duo" ∣ 10) ∧
    teamSizeOf "duo" ∣ 10 ∧
    totalTeamsOf "duo" 10 * teamSizeOf "duo" = 10 ∧
    createTournamentModeCheck "squad" 10 = false :=
  ⟨(c8_divisibility "duo" 10).1, by decide,
    (c8_divisibility "duo" 10).2 (by decide), by decide⟩

/-- A committed counter-variant join transaction implies the tournament
was read in status Upcoming. -/
theorem joinWithSlotTx_ok_status {db db' : DB} {uid tid : String}
    {fee : Money} {ign : String} {si ti : Option Nat} {pid : String}
    (h : joinWithSlotTx db uid tid fee ign si ti pid = .ok db')
    {t : Tournament} (ht : lookupD db.tournaments tid = some t) :
    t.status = TStatus.Upcoming := by
  unfold joinWithSlotTx at h
  repeat' split at h
  all_goals simp_all

/-- A committed slot-table join implies the tournament was read in
status Upcoming. -/
theorem slotTableJoin_ok_status {db db' : DB} {uid tid : String}
    {fee : Money} {si : Nat} {ti : Option Nat} {ign pid : String}
    (h : handleJoinTournamentSlotTable db uid tid fee si ti ign pid =
      .ok db')
    {t : Tournament} (ht : lookupD db.tournaments tid = some t) :
    t.status = TStatus.Upcoming := by
  unfold handleJoinTournamentSlotTable at h
  repeat' split at h
  all_goals simp_all

/-- Claim C7 (amended): the join operations admit only tournaments in
status Upcoming (so a Completed tournament admits no join), but status is
not monotone: the room-details update writes `status := Live`
unconditionally, so it moves any tournament — including a Completed
one — to Live, and settlement never checks the current status. -/
theorem c7_status_transitions :
    (∀ (db : DB) (tid r p : String) (db' : DB),
      handleUpdateRoomDetails db tid r p = .ok db' →
      ∀ t : Tournament, lookupD db.tournaments tid = some t →
        lookupD db'.tournaments tid = some
          { t with
            roomId := r
            roomPassword := p
            status := TStatus.Live }) ∧
    (∀ (db : DB) (uid tid : String) (fee : Money) (ign : String)
      (si ti : Option Nat) (pid : String) (db' : DB),
      handleJoinTournamentWithSlot db uid tid fee ign si ti pid = .ok db' →
      ∀ t : Tournament, lookupD db.tournaments tid = some t →
        t.status = TStatus.Upcoming) ∧
    (∀ (db : DB) (uid tid : String) (fee : Money) (si : Nat)
      (ti : Option Nat) (ign pid : String) (db' : DB),
      handleJoinTournamentSlotTable db uid tid fee si ti ign pid = .ok db' →
      ∀ t : Tournament, lookupD db.tournaments tid = some t →
        t.status = TStatus.Upcoming) := by
  refine ⟨?_, ?_, ?_⟩
  · intro db tid r p db' h t ht
    unfold handleUpdateRoomDetails at h
    split at h
    · cases h
    · cases h
      rw [lookupD_updateD_self, ht]
      rfl
  · intro db uid tid fee ign si ti pid db' h t ht
    unfold handleJoinTournamentWithSlot at h
    split at h
    · cases h
    · exact joinWithSlotTx_ok_status h ht
  · intro db uid tid fee si ti ign pid db' h t ht
    exact slotTableJoin_ok_status h ht

/-- Witness for C7: the room update on the Completed `donedb` tournament
rewrites it to Live; the successful joins of `raceDB0` and `sdb` were on
Upcoming tournaments. -/
theorem c7_status_transitions_witness :
    handleUpdateRoomDetails donedb "t1" "room" "pw" = .ok roomUpdDone ∧
    lookupD donedb.tournaments "t1" = some tDone ∧
    lookupD roomUpdDone.tournaments "t1" = some
      { tDone with
        roomId := "room"
        roomPassword := "pw"
        status := TStatus.Live } ∧
    handleJoinTournamentWithSlot raceDB0 "ua" "t1" 10 "A" (some 1) none
      "pa" = .ok raceDB1 ∧
    lookupD raceDB0.tournaments "t1" = some tRace ∧
    tRace.status = TStatus.Upcoming ∧
    handleJoinTournamentSlotTable sdb "u1" "t1" 10 1 none "IGN" "p1" =
      .ok sdbJoined ∧
    lookupD sdb.tournaments "t1" = some tSlot ∧
    tSlot.status = TStatus.Upcoming :=
  ⟨rfl, by decide,
    c7_status_transitions.1 donedb "t1" "room" "pw" roomUpdDone rfl tDone
      (by decide),
    rfl, by decide,
    c7_status_transitions.2.1 raceDB0 "ua" "t1" 10 "A" (some 1) none "pa"
      raceDB1 rfl tRace (by decide),
    rfl, by decide,
    c7_status_transitions.2.2 sdb "u1" "t1" 10 1 none "IGN" "p1" sdbJoined
      rfl tSlot (by decide)⟩

/-! ## Claim C10 -/

/-- A credit queued by the per-kill settlement always has a strictly
positive amount. -/
theorem perKillCredits_pos {km : List (String × Nat)} {prize : Money}
    {title : String} {parts : List (String × Participant)} :
    ∀ tx ∈ perKillCredits km prize title parts, 0 < tx.amount := by
  intro tx htx
  unfold perKillCredits at htx
  rw [List.mem_filterMap] at htx
  obtain ⟨q, hq, hf⟩ := htx
  by_cases hpos : 0 < (killsOf km q.1 : Money) * prize
  · simp only [hpos, if_pos] at hf
    cases hf
    exact hpos
  · simp [hpos] at hf

/-- Claim C10: the winner-take-all settlement always appends exactly one
credit transaction whose amount is the tournament's prize pool — the
statement carries no positivity assumption on the prize pool, so a
zero-amount credit is recorded too — whereas every transaction the
per-kill settlement adds has a strictly positive amount (zero payouts
are skipped). -/
theorem c10_zero_amount_credit :
    (∀ (db : DB) (tid w : String) (t : Tournament),
      lookupD db.tournaments tid = some t →
      (lookupD db.users w).isSome = true →
      (handleDeclareWinnerNormal db tid w).isOk = true) ∧
    (∀ (db db' : DB) (tid w : String) (t : Tournament),
      lookupD db.tournaments tid = some t →
      handleDeclareWinnerNormal db tid w = .ok db' →
      db'.transactions = db.transactions ++
        [{ userId := w, amount := t.prizePool, type := "credit",
           description := "Prize money for Manage: " ++ t.title }]) ∧
    (∀ (db db' : DB) (tid : String) (km : List (String × Nat)),
      handleDeclareWinnerPerKill db tid km = .ok db' →
      ∀ tx ∈ db'.transactions, tx ∈ db.transactions ∨ 0 < tx.amount) := by
  refine ⟨?_, ?_, ?_⟩
  · intro db tid w t ht hw
    rw [Option.isSome_iff_exists] at hw
    obtain ⟨u, hu⟩ := hw
    unfold handleDeclareWinnerNormal
    rw [ht]
    simp [hu, Except.isOk, Except.toBool]
  · intro db db' tid w t ht h
    unfold handleDeclareWinnerNormal at h
    simp only [ht] at h
    by_cases hn : (lookupD db.users w).isNone = true
    · rw [if_pos hn] at h
      cases h
    · rw [if_neg hn] at h
      cases h
      rfl
  · intro db db' tid km h tx htx
    simp only [handleDeclareWinnerPerKill] at h
    split at h
    · cases h
    · split at h
      · cases h
      · cases h
        rcases List.mem_append.mp htx with hold | hnew
        · exact Or.inl hold
        · exact Or.inr (perKillCredits_pos tx hnew)

/-- Witness for C10: settling the zero-prize tournament of `zerodb`
records a credit transaction of amount 0, and the per-kill settlement of
`missdb` (every payout zero) appends only positive-amount transactions,
that is, none. -/
theorem c10_zero_amount_credit_witness :
    lookupD zerodb.tournaments "t1" = some tZero ∧
    (lookupD zerodb.users "u1").isSome = true ∧
    (handleDeclareWinnerNormal zerodb "t1" "u1").isOk = true ∧
    handleDeclareWinnerNormal zerodb "t1" "u1" = .ok zeroSettled ∧
    zeroSettled.transactions = zerodb.transactions ++
      [{ userId := "u1", amount := tZero.prizePool, type := "credit",
         description := "Prize money for Manage: " ++ tZero.title }] ∧
    tZero.prizePool = 0 ∧
    handleDeclareWinnerPerKill missdb "t1" [] = .ok pkMissSettled ∧
    (∀ tx ∈ pkMissSettled.transactions,
      tx ∈ missdb.transactions ∨ 0 < tx.amount) :=
  ⟨by decide, by decide,
    c10_zero_amount_credit.1 zerodb "t1" "u1" tZero (by decide) (by decide),
    rfl,
    c10_zero_amount_credit.2.1 zerodb zeroSettled "t1" "u1" tZero
      (by decide) rfl,
    by decide, rfl,
    c10_zero_amount_credit.2.2 missdb pkMissSettled "t1" [] rfl⟩

/-! ## Claim C4 -/

/-- Claim C4: a winner-take-all settlement of an existing, non-Completed
tournament whose chosen winner is a registered participant commits, and
in the committed state the winner's wallet grew by exactly the prize
pool, exactly one credit transaction of that amount was appended for the
winner, the tournament is Completed, every participant document of the
tournament whose `userId` is the winner's is `Winner`, every other one
is `Completed`, and all of them have `seenByUser = false`. (The source
itself never checks the two conditions `_hnc` and `_hpart`; they are the
claim's premises.) -/
theorem c4_winner_take_all (db : DB) (tid w : String) (t : Tournament)
    (u : User)
    (ht : lookupD db.tournaments tid = some t)
    (_hnc : t.status ≠ TStatus.Completed)
    (hu : lookupD db.users w = some u)
    (_hpart : ∃ q ∈ participantsOf db tid, q.2.userId = w)
    (hN : (db.participants.map Prod.fst).Nodup) :
    (handleDeclareWinnerNormal db tid w).isOk = true ∧
    ∀ db', handleDeclareWinnerNormal db tid w = .ok db' →
      lookupD db'.users w = some
        { u with walletBalance := u.walletBalance + t.prizePool } ∧
      db'.transactions = db.transactions ++
        [{ userId := w, amount := t.prizePool, type := "credit",
           description := "Prize money for Manage: " ++ t.title }] ∧
      lookupD db'.tournaments tid = some
        { t with status := TStatus.Completed } ∧
      (∀ q ∈ participantsOf db tid,
        lookupD db'.participants q.1 = some
          { q.2 with
            status := if q.2.userId = w then PStatus.Winner
                      else PStatus.Completed
            seenByUser := some false }) := by
  have hnn : ¬((lookupD db.users w).isNone = true) := by simp [hu]
  constructor
  · unfold handleDeclareWinnerNormal
    simp only [ht]
    rw [if_neg hnn]
    rfl
  · intro db' h
    unfold handleDeclareWinnerNormal at h
    simp only [ht] at h
    rw [if_neg hnn] at h
    cases h
    refine ⟨?_, rfl, ?_, ?_⟩
    · rw [lookupD_updateD_self, hu]
      rfl
    · rw [lookupD_updateD_self, ht]
      rfl
    · intro q hq
      have hqmem : q ∈ db.participants := List.mem_filter.mp hq |>.1
      have hqtid : (q.2.tournamentId == tid) = true :=
        List.mem_filter.mp hq |>.2
      have hfn : (fun r : String × Participant =>
          if r.2.tournamentId == tid then
            (r.1, { r.2 with
              status := if r.2.userId == w then PStatus.Winner
                        else PStatus.Completed
              seenByUser := some false })
          else r) =
          (fun r : String × Participant =>
            (r.1, if r.2.tournamentId == tid then
              { r.2 with
                status := if r.2.userId == w then PStatus.Winner
                          else PStatus.Completed
                seenByUser := some false }
              else r.2)) := by
        funext r
        by_cases hr : r.2.tournamentId == tid <;> simp [hr]
      show lookupD (db.participants.map _) q.1 = _
      rw [hfn, lookupD_map_keyed _ hN hqmem, hqtid]
      simp only [if_true]
      by_cases hw : q.2.userId == w
      · simp only [hw, if_pos]
        rw [show (q.2.userId = w) from by exact beq_iff_eq.mp hw]
        simp
      · have hw' : ¬(q.2.userId = w) := by
          simpa using hw
        simp [hw, hw']

/-- Witness for C4: settling `windb` (prize pool 1000, three registered
users) for winner `uA`. -/
theorem c4_winner_take_all_witness :
    lookupD windb.tournaments "t1" = some tPrize ∧
    tPrize.status ≠ TStatus.Completed ∧
    lookupD windb.users "uA" = some (userZero "uA") ∧
    (∃ q ∈ participantsOf windb "t1", q.2.userId = "uA") ∧
    ((handleDeclareWinnerNormal windb "t1" "uA").isOk = true ∧
     ∀ db', handleDeclareWinnerNormal windb "t1" "uA" = .ok db' →
      lookupD db'.users "uA" = some
        { userZero "uA" with
          walletBalance := (userZero "uA").walletBalance +
            tPrize.prizePool } ∧
      db'.transactions = windb.transactions ++
        [{ userId := "uA", amount := tPrize.prizePool, type := "credit",
           description := "Prize money for Manage: " ++ tPrize.title }] ∧
      lookupD db'.tournaments "t1" = some
        { tPrize with status := TStatus.Completed } ∧
      (∀ q ∈ participantsOf windb "t1",
        lookupD db'.participants q.1 = some
          { q.2 with
            status := if q.2.userId = "uA" then PStatus.Winner
                      else PStatus.Completed
            seenByUser := some false })) :=
  ⟨by decide, by decide, by decide, by decide,
    c4_winner_take_all windb "t1" "uA" tPrize (userZero "uA") (by decide)
      (by decide) (by decide) (by decide) (by decide)⟩

/-! ## Claim C9 -/

/-- Claim C9: the frame of a committed join, in both variants. Only the
joining user's `walletBalance` changes (decreased by exactly the entry
fee, `username`/`email`/`isAdmin` untouched), every other user document
is untouched; on the tournament only `currentParticipants` (+1) changes —
plus, in the slot-table variant, the claimed cell of `slots` — and every
other tournament document is untouched; exactly one participant document
and exactly one debit transaction are appended. -/
theorem c9_join_frame :
    (∀ (db db' : DB) (uid tid : String) (fee : Money) (ign : String)
      (si ti : Option Nat) (pid : String) (u : User) (t : Tournament),
      lookupD db.users uid = some u →
      lookupD db.tournaments tid = some t →
      handleJoinTournamentWithSlot db uid tid fee ign si ti pid = .ok db' →
      lookupD db'.users uid = some
        { u with walletBalance := u.walletBalance - fee } ∧
      (∀ k : String, k ≠ uid → lookupD db'.users k = lookupD db.users k) ∧
      lookupD db'.tournaments tid = some
        { t with currentParticipants := t.currentParticipants + 1 } ∧
      (∀ k : String, k ≠ tid →
        lookupD db'.tournaments k = lookupD db.tournaments k) ∧
      db'.participants = db.participants ++ [(pid,
        { userId := uid, username := u.username, ign := ign,
          tournamentId := tid, status := PStatus.Joined, slotIndex := si,
          teamId := ti, kills := none, seenByUser := none })] ∧
      db'.transactions = db.transactions ++
        [{ userId := uid, amount := fee, type := "debit",
           description := "Entry fee for " ++ t.title }]) ∧
    (∀ (db db' : DB) (uid tid : String) (fee : Money) (si : Nat)
      (ti : Option Nat) (ign pid : String) (u : User) (t : Tournament)
      (arr : List SlotCell),
      lookupD db.users uid = some u →
      lookupD db.tournaments tid = some t →
      t.slots = some arr →
      handleJoinTournamentSlotTable db uid tid fee si ti ign pid =
        .ok db' →
      lookupD db'.users uid = some
        { u with walletBalance := u.walletBalance - fee } ∧
      (∀ k : String, k ≠ uid → lookupD db'.users k = lookupD db.users k) ∧
      lookupD db'.tournaments tid = some
        { t with
          slots := some (arr.set (si - 1)
            { arr.getD (si - 1) emptyCell with
              userId := some uid
              participantId := some pid
              ign := ign })
          currentParticipants := t.currentParticipants + 1 } ∧
      (∀ k : String, k ≠ tid →
        lookupD db'.tournaments k = lookupD db.tournaments k) ∧
      db'.participants = db.participants ++ [(pid,
        { userId := uid, username := u.username, ign := ign,
          tournamentId := tid, status := PStatus.Joined,
          slotIndex := some si, teamId := ti, kills := none,
          seenByUser := some false })] ∧
      db'.transactions = db.transactions ++
        [{ userId := uid, amount := fee, type := "debit",
           description := "Entry fee for " ++ t.title }]) := by
  constructor
  · intro db db' uid tid fee ign si ti pid u t hu ht h
    unfold handleJoinTournamentWithSlot at h
    split at h
    · cases h
    · unfold joinWithSlotTx at h
      split at h
      · cases h
      next u0 hu0 =>
        rw [hu] at hu0
        cases hu0
        split at h
        · cases h
        · split at h
          · cases h
          next t0 ht0 =>
            rw [ht] at ht0
            cases ht0
            split at h
            · cases h
            · split at h
              · cases h
              · cases h
                refine ⟨?_, ?_, ?_, ?_, rfl, rfl⟩
                · rw [lookupD_updateD_self, hu]
                  rfl
                · intro k hk
                  exact lookupD_updateD_ne _ _ hk
                · rw [lookupD_updateD_self, ht]
                  rfl
                · intro k hk
                  exact lookupD_updateD_ne _ _ hk
  · intro db db' uid tid fee si ti ign pid u t arr hu ht hslots h
    unfold handleJoinTournamentSlotTable at h
    split at h
    · cases h
    next u0 hu0 =>
      rw [hu] at hu0
      cases hu0
      split at h
      · cases h
      · split at h
        · cases h
        next t0 ht0 =>
          rw [ht] at ht0
          cases ht0
          split at h
          · cases h
          · split at h
            · cases h
            next arr0 harr0 =>
              rw [hslots] at harr0
              cases harr0
              split at h
              · cases h
              · split at h
                · cases h
                · split at h
                  · cases h
                  · cases h
                    refine ⟨?_, ?_, ?_, ?_, rfl, rfl⟩
                    · rw [lookupD_updateD_self, hu]
                      rfl
                    · intro k hk
                      exact lookupD_updateD_ne _ _ hk
                    · rw [lookupD_updateD_self, ht]
                      rfl
                    · intro k hk
                      exact lookupD_updateD_ne _ _ hk

/-- Witness for C9: the committed counter-variant join of `raceDB0` and
the committed slot-table join of `sdb`, with every frame fact spelled
out. -/
theorem c9_join_frame_witness :
    lookupD raceDB0.users "ua" = some (userRich "ua") ∧
    lookupD raceDB0.tournaments "t1" = some tRace ∧
    handleJoinTournamentWithSlot raceDB0 "ua" "t1" 10 "A" (some 1) none
      "pa" = .ok raceDB1 ∧
    (lookupD raceDB1.users "ua" = some
      { userRich "ua" with
        walletBalance := (userRich "ua").walletBalance - 10 } ∧
     (∀ k : String, k ≠ "ua" →
       lookupD raceDB1.users k = lookupD raceDB0.users k) ∧
     lookupD raceDB1.tournaments "t1" = some
       { tRace with currentParticipants := tRace.currentParticipants + 1 } ∧
     (∀ k : String, k ≠ "t1" →
       lookupD raceDB1.tournaments k = lookupD raceDB0.tournaments k) ∧
     raceDB1.participants = raceDB0.participants ++ [("pa",
       { userId := "ua", username := (userRich "ua").username, ign := "A",
         tournamentId := "t1", status := PStatus.Joined,
         slotIndex := some 1, teamId := none, kills := none,
         seenByUser := none })] ∧
     raceDB1.transactions = raceDB0.transactions ++
       [{ userId := "ua", amount := 10, type := "debit",
          description := "Entry fee for " ++ tRace.title }]) ∧
    lookupD sdb.users "u1" = some (userRich "u1") ∧
    lookupD sdb.tournaments "t1" = some tSlot ∧
    tSlot.slots = some [emptyCell, emptyCell] ∧
    handleJoinTournamentSlotTable sdb "u1" "t1" 10 1 none "IGN" "p1" =
      .ok sdbJoined ∧
    (lookupD sdbJoined.users "u1" = some
      { userRich "u1" with
        walletBalance := (userRich "u1").walletBalance - 10 } ∧
     (∀ k : String, k ≠ "u1" →
       lookupD sdbJoined.users k = lookupD sdb.users k) ∧
     lookupD sdbJoined.tournaments "t1" = some
       { tSlot with
         slots := some (([emptyCell, emptyCell] : List SlotCell).set 0
           { ([emptyCell, emptyCell] : List SlotCell).getD 0 emptyCell with
             userId := some "u1"
             participantId := some "p1"
             ign := "IGN" })
         currentParticipants := tSlot.currentParticipants + 1 } ∧
     (∀ k : String, k ≠ "t1" →
       lookupD sdbJoined.tournaments k = lookupD sdb.tournaments k) ∧
     sdbJoined.participants = sdb.participants ++ [("p1",
       { userId := "u1", username := (userRich "u1").username,
         ign := "IGN", tournamentId := "t1", status := PStatus.Joined,
         slotIndex := some 1, teamId := none, kills := none,
         seenByUser := some false })] ∧
     sdbJoined.transactions = sdb.transactions ++
       [{ userId := "u1", amount := 10, type := "debit",
          description := "Entry fee for " ++ tSlot.title }]) :=
  ⟨by decide, by decide, rfl,
    c9_join_frame.1 raceDB0 raceDB1 "ua" "t1" 10 "A" (some 1) none "pa"
      (userRich "ua") tRace (by decide) (by decide) rfl,
    by decide, by decide, by decide, rfl,
    c9_join_frame.2 sdb sdbJoined "u1" "t1" 10 1 none "IGN" "p1"
      (userRich "u1") tSlot [emptyCell, emptyCell] (by decide) (by decide)
      (by decide) rfl⟩

/-- Folding integer max over cast kill counts from a cast start equals
the cast of the Nat fold. -/
theorem foldl_max_intCast (km : List (String × Nat))
    (rest : List (String × Participant)) (a : Nat) :
    rest.foldl (fun (m : Int) r => max m (killsOf km r.1 : Int)) (a : Int) =
    (((rest.map (fun r => killsOf km r.1)).foldl Nat.max a : Nat) : Int) := by
  induction rest generalizing a with
  | nil => rfl
  | cons x t ih =>
    simp only [List.foldl_cons, List.map_cons]
    rw [show max (a : Int) ((killsOf km x.1 : Nat) : Int) =
        ((Nat.max a (killsOf km x.1) : Nat) : Int) from
      (Nat.cast_max a (killsOf km x.1)).symm]
    exact ih _

/-- For a non-empty participant snapshot, the source's `-1`-seeded
integer fold equals the specification's maximum submitted kill count. -/
theorem maxKillsInt_eq_spec (km : List (String × Nat))
    (parts : List (String × Participant)) (hne : parts ≠ []) :
    maxKillsInt km parts = (specMaxKills km parts : Int) := by
  obtain ⟨q, rest, rfl⟩ := List.exists_cons_of_ne_nil hne
  unfold maxKillsInt specMaxKills
  simp only [List.map_cons, List.foldl_cons]
  rw [show max (-1 : Int) ((killsOf km q.1 : Nat) : Int) =
      ((killsOf km q.1 : Nat) : Int) from
    max_eq_right (le_trans (by norm_num) (Int.natCast_nonneg _))]
  rw [show Nat.max 0 (killsOf km q.1) = killsOf km q.1 from Nat.zero_max _]
  exact foldl_max_intCast km rest _

/-- `sumFor` over a cons. -/
theorem sumFor_cons (uid : String) (tx : Txn) (l : List Txn) :
    sumFor uid (tx :: l) =
      (if tx.userId = uid then tx.amount else 0) + sumFor uid l := by
  unfold sumFor
  by_cases h : tx.userId = uid
  · simp [List.filter_cons, h]
  · simp [List.filter_cons, h]

/-- Looking a user up after a batch of wallet increments adds the total
amount credited to that user. -/
theorem lookupD_applyCredits (users : List (String × User))
    (credits : List Txn) (uid : String) :
    lookupD (applyCredits users credits) uid =
    (lookupD users uid).map (fun u =>
      { u with walletBalance := u.walletBalance + sumFor uid credits }) := by
  induction credits generalizing users with
  | nil =>
    cases h : lookupD users uid with
    | none => simp [applyCredits, h]
    | some u =>
      simp only [applyCredits, List.foldl_nil, h, Option.map_some]
      rw [show sumFor uid [] = 0 from rfl]
      cases u
      simp
  | cons c rest ih =>
    show lookupD (applyCredits (updateD users c.userId _) rest) uid = _
    rw [ih]
    by_cases h : c.userId = uid
    · subst h
      rw [lookupD_updateD_self]
      cases hu : lookupD users c.userId with
      | none => simp
      | some u => simp [sumFor_cons, add_assoc]
    · rw [lookupD_updateD_ne _ _ (fun he => h he.symm)]
      rw [sumFor_cons, if_neg h, zero_add]

/-- A user registered by none of the participants receives nothing. -/
theorem sumFor_perKillCredits_zero {km : List (String × Nat)}
    {prize : Money} {title uid : String}
    {parts : List (String × Participant)}
    (hnone : ∀ r ∈ parts, r.2.userId ≠ uid) :
    sumFor uid (perKillCredits km prize title parts) = 0 := by
  induction parts with
  | nil => rfl
  | cons r rest ih =>
    unfold perKillCredits
    rw [List.filterMap_cons]
    have hr : r.2.userId ≠ uid := hnone r (List.mem_cons_self r rest)
    have ihr : sumFor uid (perKillCredits km prize title rest) = 0 :=
      ih (fun x hx => hnone x (List.mem_cons_of_mem r hx))
    by_cases hpos : 0 < (killsOf km r.1 : Money) * prize
    · simp only [hpos, if_pos]
      rw [sumFor_cons, if_neg hr, zero_add]
      simpa [perKillCredits] using ihr
    · simp only [hpos, if_neg, ite_false]
      simpa [perKillCredits] using ihr

/-- `sumFor` of the empty ledger suffix. -/
theorem sumFor_nil (uid : String) : sumFor uid [] = 0 := rfl

/-- `sumFor` distributes over append. -/
theorem sumFor_append (uid : String) (a b : List Txn) :
    sumFor uid (a ++ b) = sumFor uid a + sumFor uid b := by
  simp [sumFor, List.filter_append]

/-- The queued credits of a cons of participants. -/
theorem perKillCredits_cons (km : List (String × Nat)) (prize : Money)
    (title : String) (r : String × Participant)
    (rest : List (String × Participant)) :
    perKillCredits km prize title (r :: rest) =
    (if 0 < (killsOf km r.1 : Money) * prize then
       [{ userId := r.2.userId, amount := (killsOf km r.1 : Money) * prize,
          type := "credit",
          description := "Per-kill prize (" ++ toString (killsOf km r.1) ++
            " kills) - " ++ r.2.username ++ " - Manage: " ++ title }]
     else []) ++ perKillCredits km prize title rest := by
  unfold perKillCredits
  rw [List.filterMap_cons]
  by_cases hpos : 0 < (killsOf km r.1 : Money) * prize <;> simp [hpos]

/-- When a participant is the only one of the tournament with its user,
the per-kill batch credits that user exactly `kills * perKillPrize`
(also when that payout is zero and no transaction is queued). -/
theorem sumFor_perKillCredits_unique {km : List (String × Nat)}
    {prize : Money} {title : String} {parts : List (String × Participant)}
    {q : String × Participant} (hq : q ∈ parts)
    (hN : (parts.map Prod.fst).Nodup)
    (huniq : ∀ r ∈ parts, r.2.userId = q.2.userId → r = q)
    (hpr : 0 ≤ prize) :
    sumFor q.2.userId (perKillCredits km prize title parts) =
      (killsOf km q.1 : Money) * prize := by
  induction parts with
  | nil => cases hq
  | cons r rest ih =>
    simp only [List.map_cons, List.nodup_cons] at hN
    rw [perKillCredits_cons, sumFor_append]
    rcases List.mem_cons.mp hq with hhead | htail
    · have hrest : ∀ x ∈ rest, x.2.userId ≠ q.2.userId := by
        intro x hx hcontra
        have hxq : x = q := huniq x (List.mem_cons_of_mem _ hx) hcontra
        subst hxq
        exact hN.1 (hhead ▸ List.mem_map_of_mem Prod.fst hx)
      rw [sumFor_perKillCredits_zero hrest]
      subst hhead
      by_cases hpos : 0 < (killsOf km q.1 : Money) * prize
      · simp [hpos, sumFor_cons, sumFor_nil]
      · have hzero : (killsOf km q.1 : Money) * prize = 0 :=
          le_antisymm (not_lt.mp hpos)
            (mul_nonneg (Int.natCast_nonneg _) hpr)
        simp [hpos, sumFor, hzero]
    · have hne : r.2.userId ≠ q.2.userId := by
        intro hcontra
        have : r = q := huniq r (List.mem_cons_self r rest) hcontra
        subst this
        exact hN.1 (List.mem_map_of_mem Prod.fst htail)
      rw [ih htail hN.2
        (fun x hx hxe => huniq x (List.mem_cons_of_mem _ hx) hxe)]
      by_cases hpos : 0 < (killsOf km r.1 : Money) * prize
      · simp [hpos, sumFor_cons, sumFor_nil, hne]
      · simp [hpos, sumFor]

/-- Lookup after a conditional value rewrite of an association list with
distinct keys. -/
theorem lookupD_map_cond {α : Type} {l : List (String × α)}
    {q : String × α} (c : String × α → Bool) (g : String × α → α)
    (hN : (l.map Prod.fst).Nodup) (hq : q ∈ l) :
    lookupD (l.map (fun r => if c r then (r.1, g r) else r)) q.1 =
      some (if c q then g q else q.2) := by
  have hfn : (fun r : String × α => if c r then (r.1, g r) else r) =
      (fun r : String × α => (r.1, if c r then g r else r.2)) := by
    funext r
    by_cases hr : c r <;> simp [hr]
  rw [hfn]
  exact lookupD_map_keyed _ hN hq

/-! ## Claim C1 -/

/-- Claim C1: a per-kill settlement with a kills entry for every current
participant commits, and in the committed state: every participant of
the tournament carries `kills` as submitted, `seenByUser = false`, and
status `Winner` exactly when the maximum submitted kill count is
positive and its own count equals it (all tied top scorers win; all-zero
means nobody wins), `Completed` otherwise; the appended ledger suffix
contains a credit of `kills * perKillPrize` for precisely the
participants whose payout is strictly positive; and each participant's
user wallet grows by exactly its payout. -/
theorem c1_perkill_settlement (db : DB) (tid : String) (t : Tournament)
    (km : List (String × Nat))
    (ht : lookupD db.tournaments tid = some t)
    (hprize : 0 ≤ t.perKillPrize)
    (_hkm : ∀ q ∈ participantsOf db tid, (lookupD km q.1).isSome = true)
    (husers : ∀ q ∈ participantsOf db tid,
      (lookupD db.users q.2.userId).isSome = true)
    (hN : (db.participants.map Prod.fst).Nodup) :
    (handleDeclareWinnerPerKill db tid km).isOk = true ∧
    ∀ db', handleDeclareWinnerPerKill db tid km = .ok db' →
      (∀ q ∈ participantsOf db tid,
        lookupD db'.participants q.1 = some
          { q.2 with
            status := if 0 < specMaxKills km (participantsOf db tid) ∧
                killsOf km q.1 = specMaxKills km (participantsOf db tid)
              then PStatus.Winner else PStatus.Completed
            kills := some (killsOf km q.1)
            seenByUser := some false }) ∧
      db'.transactions = db.transactions ++
        perKillCredits km t.perKillPrize t.title (participantsOf db tid) ∧
      (∀ tx ∈ perKillCredits km t.perKillPrize t.title
          (participantsOf db tid),
        0 < tx.amount ∧ ∃ q ∈ participantsOf db tid,
          tx.userId = q.2.userId ∧
          tx.amount = (killsOf km q.1 : Money) * t.perKillPrize) ∧
      (∀ q ∈ participantsOf db tid,
        0 < (killsOf km q.1 : Money) * t.perKillPrize →
        ∃ tx ∈ perKillCredits km t.perKillPrize t.title
          (participantsOf db tid),
          tx.userId = q.2.userId ∧
          tx.amount = (killsOf km q.1 : Money) * t.perKillPrize) ∧
      (∀ q ∈ participantsOf db tid,
        (∀ r ∈ participantsOf db tid, r.2.userId = q.2.userId → r = q) →
        ∀ uOld, lookupD db.users q.2.userId = some uOld →
          lookupD db'.users q.2.userId = some
            { uOld with walletBalance := uOld.walletBalance +
                (killsOf km q.1 : Money) * t.perKillPrize }) := by
  have hany : (perKillCredits km t.perKillPrize t.title
      (participantsOf db tid)).any
      (fun c => (lookupD db.users c.userId).isNone) = false := by
    rw [List.any_eq_false]
    intro c hc
    unfold perKillCredits at hc
    rw [List.mem_filterMap] at hc
    obtain ⟨q, hqmem, hf⟩ := hc
    by_cases hpos : 0 < (killsOf km q.1 : Money) * t.perKillPrize
    · simp only [hpos, if_pos] at hf
      cases hf
      rcases Option.isSome_iff_exists.mp (husers q hqmem) with ⟨u, hu⟩
      simp [hu]
    · simp [hpos] at hf
  constructor
  · simp only [handleDeclareWinnerPerKill, ht]
    rw [hany]
    simp [Except.isOk, Except.toBool]
  · intro db' h
    simp only [handleDeclareWinnerPerKill, ht] at h
    rw [hany] at h
    simp only [Bool.false_eq_true, if_false] at h
    cases h
    refine ⟨?_, rfl, ?_, ?_, ?_⟩
    · intro q hq
      have hqmem : q ∈ db.participants := (List.mem_filter.mp hq).1
      have hqtid : (q.2.tournamentId == tid) = true :=
        (List.mem_filter.mp hq).2
      have hne : participantsOf db tid ≠ [] := List.ne_nil_of_mem hq
      have hcond : (0 < maxKillsInt km (participantsOf db tid) ∧
          (killsOf km q.1 : Int) = maxKillsInt km (participantsOf db tid)) ↔
          (0 < specMaxKills km (participantsOf db tid) ∧
           killsOf km q.1 = specMaxKills km (participantsOf db tid)) := by
        rw [maxKillsInt_eq_spec km _ hne]
        constructor
        · rintro ⟨h1, h2⟩
          exact ⟨by exact_mod_cast h1, by exact_mod_cast h2⟩
        · rintro ⟨h1, h2⟩
          exact ⟨by exact_mod_cast h1, by exact_mod_cast h2⟩
      rw [lookupD_map_cond _ _ hN hqmem]
      simp [hqtid, hcond]
    · intro tx htx
      simp only [perKillCredits] at htx
      rw [List.mem_filterMap] at htx
      obtain ⟨q, hqmem, hf⟩ := htx
      by_cases hpos : 0 < (killsOf km q.1 : Money) * t.perKillPrize
      · simp only [hpos, if_pos] at hf
        cases hf
        exact ⟨hpos, q, hqmem, rfl, rfl⟩
      · simp [hpos] at hf
    · intro q hq hpos
      refine ⟨⟨q.2.userId, (killsOf km q.1 : Money) * t.perKillPrize,
        "credit", "Per-kill prize (" ++ toString (killsOf km q.1) ++
          " kills) - " ++ q.2.username ++ " - Manage: " ++ t.title⟩,
        ?_, rfl, rfl⟩
      simp only [perKillCredits]
      exact List.mem_filterMap.mpr ⟨q, hq, by simp [hpos]⟩
    · intro q hq huniq uOld huOld
      have hPN : ((participantsOf db tid).map Prod.fst).Nodup :=
        hN.sublist (List.Sublist.map Prod.fst (List.filter_sublist _))
      show lookupD (applyCredits db.users _) q.2.userId = _
      rw [lookupD_applyCredits, huOld,
        sumFor_perKillCredits_unique hq hPN huniq hprize]
      rfl

/-- Witness for C1: the specification's example — per-kill prize 50 and
kills p1:3, p2:5, p3:5 on `pkdb`. -/
theorem c1_perkill_settlement_witness :
    lookupD pkdb.tournaments "t1" = some tPerKill ∧
    0 ≤ tPerKill.perKillPrize ∧
    (∀ q ∈ participantsOf pkdb "t1", (lookupD pkKills q.1).isSome = true) ∧
    (∀ q ∈ participantsOf pkdb "t1",
      (lookupD pkdb.users q.2.userId).isSome = true) ∧
    (pkdb.participants.map Prod.fst).Nodup ∧
    ((handleDeclareWinnerPerKill pkdb "t1" pkKills).isOk = true ∧
     ∀ db', handleDeclareWinnerPerKill pkdb "t1" pkKills = .ok db' →
      (∀ q ∈ participantsOf pkdb "t1",
        lookupD db'.participants q.1 = some
          { q.2 with
            status := if 0 < specMaxKills pkKills (participantsOf pkdb "t1") ∧
                killsOf pkKills q.1 =
                  specMaxKills pkKills (participantsOf pkdb "t1")
              then PStatus.Winner else PStatus.Completed
            kills := some (killsOf pkKills q.1)
            seenByUser := some false }) ∧
      db'.transactions = pkdb.transactions ++
        perKillCredits pkKills tPerKill.perKillPrize tPerKill.title
          (participantsOf pkdb "t1") ∧
      (∀ tx ∈ perKillCredits pkKills tPerKill.perKillPrize tPerKill.title
          (participantsOf pkdb "t1"),
        0 < tx.amount ∧ ∃ q ∈ participantsOf pkdb "t1",
          tx.userId = q.2.userId ∧
          tx.amount = (killsOf pkKills q.1 : Money) * tPerKill.perKillPrize) ∧
      (∀ q ∈ participantsOf pkdb "t1",
        0 < (killsOf pkKills q.1 : Money) * tPerKill.perKillPrize →
        ∃ tx ∈ perKillCredits pkKills tPerKill.perKillPrize tPerKill.title
          (participantsOf pkdb "t1"),
          tx.userId = q.2.userId ∧
          tx.amount = (killsOf pkKills q.1 : Money) * tPerKill.perKillPrize) ∧
      (∀ q ∈ participantsOf pkdb "t1",
        (∀ r ∈ participantsOf pkdb "t1", r.2.userId = q.2.userId → r = q) →
        ∀ uOld, lookupD pkdb.users q.2.userId = some uOld →
          lookupD db'.users q.2.userId = some
            { uOld with walletBalance := uOld.walletBalance +
                (killsOf pkKills q.1 : Money) * tPerKill.perKillPrize })) :=
  ⟨by decide, by decide, by decide, by decide, by decide,
    c1_perkill_settlement pkdb "t1" tPerKill pkKills (by decide) (by decide)
      (by decide) (by decide) (by decide)⟩

/-- `getD` after `set` at a different index. -/
theorem getD_set_ne (l : List SlotCell) {i j : Nat} (a d : SlotCell)
    (hij : i ≠ j) : (l.set i a).getD j d = l.getD j d := by
  simp [List.getD_eq_getElem?_getD, List.getElem?_set_ne hij]

/-- `getD` after an in-bounds `set` at the same index. -/
theorem getD_set_self (l : List SlotCell) {i : Nat} (a d : SlotCell)
    (h : i < l.length) : (l.set i a).getD i d = a := by
  simp [List.getD_eq_getElem?_getD, List.getElem?_set_self h]

/-- A committed slot-table join preserves the no-double-occupancy
invariant: the claimed cell was checked free inside the transaction, so
no existing participant (whose claimed cells are all occupied) can hold
the same slot as the new one. -/
theorem c3_join_preserves_inv (db : DB) (uid tid : String) (fee : Money)
    (si : Nat) (ti : Option Nat) (ign pid : String) (db' : DB)
    (hinv : SlotInv db)
    (h : handleJoinTournamentSlotTable db uid tid fee si ti ign pid =
      .ok db') : SlotInv db' := by
  unfold handleJoinTournamentSlotTable at h
  split at h
  · cases h
  next u0 hu0 =>
    split at h
    · cases h
    · split at h
      · cases h
      next t0 ht0 =>
        split at h
        · cases h
        · split at h
          · cases h
          next arr0 harr0 =>
            split at h
            · cases h
            next hidx =>
              split at h
              · cases h
              next hfree =>
                split at h
                · cases h
                · cases h
                  rw [not_or, not_lt, not_lt] at hidx
                  obtain ⟨hsi1, hsilen⟩ := hidx
                  have hsilt : si - 1 < arr0.length := by omega
                  have hfree' :
                      ((arr0.getD (si - 1) emptyCell).userId).isSome =
                        false := by
                    cases hcase :
                        ((arr0.getD (si - 1) emptyCell).userId).isSome
                    · rfl
                    · exact absurd hcase hfree
                  constructor
                  · intro q hq r hr hqr htid k hk
                    rcases List.mem_append.mp hq with hqo | hqn
                    · rcases List.mem_append.mp hr with hro | hrn
                      · exact hinv.1 q hqo r hro hqr htid k hk
                      · rw [List.mem_singleton] at hrn
                        subst hrn
                        dsimp only at htid
                        intro heq
                        dsimp only at heq
                        have hksi : k = si := (Option.some.inj heq).symm
                        rw [hksi] at hk
                        have hocc := hinv.2 q hqo si hk t0
                          (htid ▸ ht0) arr0 harr0
                        rw [hocc] at hfree'
                        cases hfree'
                    · rw [List.mem_singleton] at hqn
                      subst hqn
                      dsimp only at htid hk
                      rcases List.mem_append.mp hr with hro | hrn
                      · have hsik : si = k := Option.some.inj hk
                        intro heq
                        rw [← hsik] at heq
                        have hocc := hinv.2 r hro si heq t0
                          (htid.symm ▸ ht0) arr0 harr0
                        rw [hocc] at hfree'
                        cases hfree'
                      · rw [List.mem_singleton] at hrn
                        subst hrn
                        exact absurd rfl hqr
                  · intro q hq k hk t' ht' arr' harr'
                    rcases List.mem_append.mp hq with hqo | hqn
                    · by_cases hqt : q.2.tournamentId = tid
                      · rw [hqt] at ht'
                        rw [lookupD_updateD_self, ht0] at ht'
                        simp only [Option.map_some',
                          Option.some.injEq] at ht'
                        subst ht'
                        simp only [harr0, Option.some.injEq] at harr'
                        subst harr'
                        have hocc := hinv.2 q hqo k hk t0
                          (hqt ▸ ht0) arr0 harr0
                        by_cases hkk : si - 1 = k - 1
                        · rw [← hkk, getD_set_self arr0 _ _ hsilt]
                          rfl
                        · rw [getD_set_ne arr0 _ _ hkk]
                          exact hocc
                      · rw [lookupD_updateD_ne _ _ hqt] at ht'
                        exact hinv.2 q hqo k hk t' ht' arr' harr'
                    · rw [List.mem_singleton] at hqn
                      subst hqn
                      dsimp only at hk ht' ⊢
                      have hsik : si = k := Option.some.inj hk
                      rw [← hsik]
                      rw [lookupD_updateD_self, ht0] at ht'
                      simp only [Option.map_some',
                        Option.some.injEq] at ht'
                      subst ht'
                      simp only [harr0, Option.some.injEq] at harr'
                      subst harr'
                      rw [getD_set_self arr0 _ _ hsilt]
                      rfl

/-- When every earlier transaction check passes but the requested cell
is occupied, the slot-table join fails with the slot-taken error. -/
theorem c3_occupied_slot_error (db : DB) (uid tid : String) (fee : Money)
    (si : Nat) (ti : Option Nat) (ign pid : String)
    (hc : slotTableJoinChecks db uid tid fee si = true)
    (hk : slotCellTaken db tid si = true) :
    handleJoinTournamentSlotTable db uid tid fee si ti ign pid =
      .error "Selected slot is already taken." := by
  unfold slotTableJoinChecks at hc
  cases hu : lookupD db.users uid with
  | none => rw [hu] at hc; cases hc
  | some u =>
    rw [hu] at hc
    rw [Bool.and_eq_true] at hc
    obtain ⟨hb, hrest⟩ := hc
    cases htt : lookupD db.tournaments tid with
    | none => rw [htt] at hrest; cases hrest
    | some t =>
      rw [htt] at hrest
      rw [Bool.and_eq_true] at hrest
      obtain ⟨hs, hslots⟩ := hrest
      cases harr : t.slots with
      | none => rw [harr] at hslots; cases hslots
      | some arr =>
        rw [harr] at hslots
        rw [Bool.and_eq_true] at hslots
        obtain ⟨h1, h2⟩ := hslots
        have hb' : ¬(u.walletBalance < fee) := by
          rw [Bool.not_eq_true'] at hb
          exact of_decide_eq_false hb
        have hs' : t.status = TStatus.Upcoming := of_decide_eq_true hs
        have h1' : 1 ≤ si := of_decide_eq_true h1
        have h2' : si ≤ arr.length := of_decide_eq_true h2
        have hk' : ((arr.getD (si - 1) emptyCell).userId).isSome = true := by
          unfold slotCellTaken at hk
          simp only [htt, harr] at hk
          exact hk
        unfold handleJoinTournamentSlotTable
        simp only [hu, htt, harr]
        rw [if_neg hb']
        rw [if_neg (show ¬(t.status ≠ TStatus.Upcoming) by simp [hs'])]
        rw [if_neg (show ¬(si < 1 ∨ arr.length < si) by omega)]
        rw [if_pos hk']

/-- Claim C3 (amended): in the slot-table variant the slot's freedom is
re-checked inside the join transaction — a join whose requested cell is
occupied fails with the slot-taken error, and a committed join preserves
the no-double-occupancy invariant `SlotInv`. (In the occupancy-counter
variant the slot check is only a pre-transaction query, and the race of
`c3_counterexample` double-books a slot.) -/
theorem c3_slot_table_invariant :
    (∀ (db : DB) (uid tid : String) (fee : Money) (si : Nat)
      (ti : Option Nat) (ign pid : String) (db' : DB),
      SlotInv db →
      handleJoinTournamentSlotTable db uid tid fee si ti ign pid =
        .ok db' →
      SlotInv db') ∧
    (∀ (db : DB) (uid tid : String) (fee : Money) (si : Nat)
      (ti : Option Nat) (ign pid : String),
      slotTableJoinChecks db uid tid fee si = true →
      slotCellTaken db tid si = true →
      handleJoinTournamentSlotTable db uid tid fee si ti ign pid =
        .error "Selected slot is already taken.") :=
  ⟨c3_join_preserves_inv, c3_occupied_slot_error⟩

/-- Witness for C3: the empty slot table of `sdb` satisfies the
invariant, the committed join keeps it, and on `sdbOcc` (cell 1 taken)
the same join fails with the slot-taken error. -/
theorem c3_slot_table_invariant_witness :
    SlotInv sdb ∧
    handleJoinTournamentSlotTable sdb "u1" "t1" 10 1 none "IGN" "p1" =
      .ok sdbJoined ∧
    SlotInv sdbJoined ∧
    slotTableJoinChecks sdbOcc "u1" "t1" 10 1 = true ∧
    slotCellTaken sdbOcc "t1" 1 = true ∧
    handleJoinTournamentSlotTable sdbOcc "u1" "t1" 10 1 none "IGN" "p1" =
      .error "Selected slot is already taken." := by
  have hinv : SlotInv sdb := by
    constructor <;> intro q hq <;> simp [sdb] at hq
  exact ⟨hinv, rfl,
    c3_slot_table_invariant.1 sdb "u1" "t1" 10 1 none "IGN" "p1" sdbJoined
      hinv rfl,
    by decide, by decide,
    c3_slot_table_invariant.2 sdbOcc "u1" "t1" 10 1 none "IGN" "p1"
      (by decide) (by decide)⟩
